import Mathlib

/-!
# Verification of the stale-issues dashboard data pipeline

Shallow embedding of the data pipeline of `src/stale-dashboard/app.js`
(class `StaleDashboard`) and proofs of the specified properties.

Modelling conventions:
* Timestamps and calendar dates are modelled as `Int` (an abstract instant /
  day number); `today - i` models `date.setDate(date.getDate() - i)`.
* `fetch` responses are modelled by explicit result types
  (`FetchResponse`, `FileResult`): a transport error corresponds to the
  promise rejecting, `ok = false` to a non-2xx status, and a `none` body to
  `response.json()` throwing on a malformed body.
* `Array.prototype.sort(cmp)` (stable per the ECMAScript spec) is modelled
  by `List.insertionSort le` with `le a b := cmp a b ≤ 0`, which is a stable
  sort producing an output sorted by `le`.
* JavaScript truthiness of a filter string is the test `s ≠ ""`; truthiness
  of the `pull_request` marker field is a `Bool` field on the raw record.
-/

/-- A raw label object from the items API (`labels[].name`). -/
structure RawLabel where
  name : String
deriving DecidableEq, Repr

/-- A raw user object from the items API (`user.login`). -/
structure RawUser where
  login : String
deriving DecidableEq, Repr

/-- A raw record returned by the items listing endpoint
(`GET /repos/{org}/{repo}/issues?...`).  `pull_request` models the
truthiness of the pull-request marker field on the raw record. -/
structure RawItem where
  pull_request : Bool
  title : String
  number : Int
  user : RawUser
  updated_at : Int
  labels : List RawLabel
  html_url : String
  state : String
deriving DecidableEq, Repr

/-- The canonical Stale Item shape pushed into `this.staleItems` by
`fetchStaleItems` (app.js lines 107-119). -/
structure Item where
  type : String
  repo : String
  org : String
  repoName : String
  title : String
  number : Int
  author : String
  updated : Int
  labels : List String
  url : String
  state : String
deriving DecidableEq, Repr

/-- The outcome of one `fetch` of the items listing endpoint:
either the promise rejects (`transportError`), or a response arrives with
an `ok` flag (2xx status) and a body that either parses as a JSON array of
raw records (`some`) or makes `response.json()` throw (`none`). -/
inductive FetchResponse where
  | transportError
  | response (ok : Bool) (body : Option (List RawItem))
deriving DecidableEq

/-- Holds (`true`) exactly when the response is a transport failure or carries a
non-2xx status (`!issuesResponse.ok`). -/
def FetchResponse.isFailure : FetchResponse → Bool
  | .transportError => true
  | .response ok _ => !ok

/-- Normalization of one raw record into a Stale Item, mirroring the object
literal pushed by `fetchStaleItems` (app.js lines 107-119):
`type: item.pull_request ? 'pr' : 'issue'`, `repo: `${org}/${repo}``, etc. -/
def normalizeItem (org repo : String) (item : RawItem) : Item :=
  { type := if item.pull_request then "pr" else "issue"
    repo := org ++ "/" ++ repo
    org := org
    repoName := repo
    title := item.title
    number := item.number
    author := item.user.login
    updated := item.updated_at
    labels := item.labels.map (fun l => l.name)
    url := item.html_url
    state := item.state }

/-- The method `fetchStaleItems(org, repo)` (app.js lines 82-124) as a function of the
network's response for this repository: the list of Stale Items it
contributes.  A transport error is caught by the surrounding `try`, a
non-ok status hits the early `return`, and a body that fails to parse
throws inside the `try`; in each case the contribution is empty. -/
def fetchStaleItems (org repo : String) (resp : FetchResponse) : List Item :=
  match resp with
  | .transportError => []
  | .response ok body =>
    if !ok then []
    else
      match body with
      | none => []
      | some issues => issues.map (normalizeItem org repo)

/-- The load cycle of `loadData` (app.js lines 63-68): reset `staleItems`
and sequentially append each configured repository's contribution, where
`net org repo` is the network's response for that repository. -/
def loadAll : List (String × String) → (String → String → FetchResponse) → List Item
  | [], _ => []
  | p :: rest, net => fetchStaleItems p.1 p.2 (net p.1 p.2) ++ loadAll rest net

/-- The `currentSort` record (app.js line 7). -/
structure SortState where
  field : String
  ascending : Bool
deriving DecidableEq, Repr

/-- The sort-state update of `sortBy` (app.js lines 176-181): clicking the
current field flips `ascending`; clicking a different field selects it with
`ascending = false`. -/
def toggleSort (cur : SortState) (field : String) : SortState :=
  if cur.field == field then { cur with ascending := !cur.ascending }
  else { field := field, ascending := false }

/-- The values of the three filter inputs read by `applyFilters`
(app.js lines 154-156); `searchFilter` holds the raw input value, which
`applyFilters` lowercases at read time. -/
structure Filters where
  repoFilter : String
  typeFilter : String
  searchFilter : String
deriving DecidableEq, Repr

/-- Models `String.prototype.toLowerCase`: lowercase every character.  (Defined
as a structural map over the character list so that concrete instances
evaluate; extensionally this is `String.toLower`.) -/
def jsToLower (s : String) : String :=
  ⟨s.data.map Char.toLower⟩

/-- Models `String.prototype.includes`: substring containment. -/
def strIncludes (s sub : String) : Bool :=
  decide (sub.toList <:+: s.toList)

/-- The per-item predicate of `applyFilters` (app.js lines 158-163),
including its early returns: a non-empty (truthy) filter string that
disagrees with the item rejects it; otherwise the item passes. -/
def itemMatches (f : Filters) (item : Item) : Bool :=
  let search := jsToLower f.searchFilter
  if f.repoFilter != "" && item.repo != f.repoFilter then false
  else if f.typeFilter != "" && item.type != f.typeFilter then false
  else if search != "" && !(strIncludes (jsToLower item.title) search) then false
  else true

/-- The method `applyFilters` (app.js lines 153-166) restricted to its data content:
`this.filteredItems = this.staleItems.filter(...)`. -/
def applyFiltersList (items : List Item) (f : Filters) : List Item :=
  items.filter (itemMatches f)

/-- The repo-equality conjunct of the filter predicate in isolation. -/
def repoPred (f : Filters) (item : Item) : Bool :=
  !(f.repoFilter != "" && item.repo != f.repoFilter)

/-- The kind-equality conjunct of the filter predicate in isolation. -/
def typePred (f : Filters) (item : Item) : Bool :=
  !(f.typeFilter != "" && item.type != f.typeFilter)

/-- The case-insensitive title-substring conjunct of the filter predicate
in isolation. -/
def searchPred (f : Filters) (item : Item) : Bool :=
  !(jsToLower f.searchFilter != ""
    && !(strIncludes (jsToLower item.title) (jsToLower f.searchFilter)))

/-- A JavaScript value as it occurs on one side of the comparisons
`aVal < bVal` / `aVal > bVal` inside the sort comparator (app.js lines
183-202): an integer (timestamps after `.getTime()`, numbers after
`parseInt`), a string, an array of strings, or `undefined` (an unknown
field name). -/
inductive SVal where
  | int (n : Int)
  | str (s : String)
  | arr (l : List String)
  | undefined
deriving DecidableEq, Repr

/-- The JavaScript `<` relation on the values the comparator can see:
numeric on numbers, lexicographic on strings; comparing two arrays
coerces each to its comma-joined string; every comparison involving
`undefined` or mixed types is false. -/
def svalLt : SVal → SVal → Bool
  | .int a, .int b => a < b
  | .str a, .str b => a < b
  | .arr a, .arr b => String.intercalate "," a < String.intercalate "," b
  | _, _ => false

/-- Dynamic field access `a[field]` on a Stale Item. -/
def Item.field (it : Item) : String → SVal
  | "type" => .str it.type
  | "repo" => .str it.repo
  | "org" => .str it.org
  | "repoName" => .str it.repoName
  | "title" => .str it.title
  | "number" => .int it.number
  | "author" => .str it.author
  | "updated" => .int it.updated
  | "labels" => .arr it.labels
  | "url" => .str it.url
  | "state" => .str it.state
  | _ => .undefined

/-- The key the comparator of `sortBy` actually compares (app.js lines
184-197): `updated` becomes the instant (`getTime()`), `number` goes
through `parseInt`, and any other string-typed value is lowercased. -/
def sortKey (field : String) (it : Item) : SVal :=
  if field == "updated" then .int it.updated
  else if field == "number" then .int it.number
  else
    match it.field field with
    | .str s => .str (jsToLower s)
    | v => v

/-- The comparator passed to `this.filteredItems.sort` (app.js lines
183-202), returning `-1`, `1` or `0` with the ascending flag folded in. -/
def itemCmp (field : String) (asc : Bool) (a b : Item) : Int :=
  let av := sortKey field a
  let bv := sortKey field b
  if svalLt av bv then (if asc then -1 else 1)
  else if svalLt bv av then (if asc then 1 else -1)
  else 0

/-- The relation `cmp(a, b) ≤ 0` — "keep `a` no later than `b`" — which a stable
sort derives from the comparator. -/
def itemLe (field : String) (asc : Bool) (a b : Item) : Bool :=
  decide (itemCmp field asc a b ≤ 0)

/-- The call `this.filteredItems.sort(comparator)` — `Array.prototype.sort` is
stable per the ECMAScript spec, modelled by a stable insertion sort on the
comparator's `≤ 0` relation. -/
def sortItems (field : String) (asc : Bool) (items : List Item) : List Item :=
  List.insertionSort (fun a b => itemLe field asc a b = true) items

/-- The mutable state of the `StaleDashboard` instance that the
filter/sort pipeline touches: the Aggregation Store (`staleItems`), the
derived view (`filteredItems`), the current sort, and the filter inputs
(which live in the DOM in the original). -/
structure DashState where
  staleItems : List Item
  filteredItems : List Item
  currentSort : SortState
  filters : Filters
deriving DecidableEq, Repr

/-- The state update of `applyFilters` (app.js lines 153-166): recompute
`filteredItems` from the store and the filter inputs.  The current sort is
read nowhere in this method. -/
def DashState.applyFiltersOp (s : DashState) : DashState :=
  { s with filteredItems := applyFiltersList s.staleItems s.filters }

/-- The state update of `sortBy(field)` (app.js lines 175-205): toggle the
sort state, then sort `filteredItems` in place with the comparator over
the clicked field and the new ascending flag. -/
def DashState.sortByOp (s : DashState) (field : String) : DashState :=
  let ns := toggleSort s.currentSort field
  { s with currentSort := ns,
           filteredItems := sortItems field ns.ascending s.filteredItems }

/-- The optional `totals` aggregate of a Daily Snapshot. -/
structure Totals where
  totalStale : Int
  staleIssues : Int
  stalePRs : Int
deriving DecidableEq, Repr

/-- One `repositories` entry of a Daily Snapshot. -/
structure RepoEntry where
  repo : String
  totalStale : Int
deriving DecidableEq, Repr

/-- A Daily Snapshot as parsed from `data/history/{date}.json`;
`date` is the calendar date as an abstract day number. -/
structure Snapshot where
  date : Int
  totals : Option Totals
  repositories : Option (List RepoEntry)
deriving DecidableEq, Repr

/-- The outcome of probing one snapshot file: the fetch rejects, the
response is not ok (file missing), the body fails to parse as JSON, or a
snapshot is obtained. -/
inductive FileResult where
  | transportError
  | notFound
  | malformed
  | ok (snap : Snapshot)
deriving DecidableEq

/-- The 365 dates `today - i` for `i ∈ [0, 365)` that the history scan of
`loadHistoricalData` addresses, newest first (app.js lines 283-287). -/
def probeDates (today : Int) : List Int :=
  (List.range 365).map (fun i : Nat => today - (i : Int))

/-- One iteration of the history scan loop (app.js lines 283-297): probe
the file for date `today - i`; a successful probe contributes its
snapshot, and a missing file, a failed fetch or a malformed body
contributes nothing (the `response.ok` guard and the `catch`/`continue`). -/
def probeResult (today : Int) (store : Int → FileResult) (i : Nat) : Option Snapshot :=
  match store (today - (i : Int)) with
  | .ok snap => some snap
  | _ => none

/-- The method `loadHistoricalData` (app.js lines 275-310) as a function of today's
date and of the snapshot file store's response per date: probe the 365
dates newest-first, keep the snapshots of the successful probes, then sort
ascending by the `date` field
(`(a, b) => new Date(a.date) - new Date(b.date)`). -/
def loadHistoricalData (today : Int) (store : Int → FileResult) : List Snapshot :=
  let historyData := (List.range 365).filterMap (probeResult today store)
  List.insertionSort (fun a b : Snapshot => a.date ≤ b.date) historyData

/-- The value of the trend-period selector: `"all"` or a positive integer
string, already through `parseInt`. -/
inductive Period where
  | all
  | days (n : Nat)
deriving DecidableEq, Repr

/-- The period filter of `updateCharts` (app.js lines 318-323): for a
numeric period keep the snapshots with
`new Date(d.date) >= cutoffDate` where `cutoffDate = today - N days`;
for `"all"` leave the series untouched. -/
def filterByPeriod (today : Int) (period : Period) (series : List Snapshot) :
    List Snapshot :=
  match period with
  | .all => series
  | .days n => series.filter (fun d => decide (today - (n : Int) ≤ d.date))

/-- The repository series of `renderBreakdownChart` (app.js lines
413-420): take the last element of the (filtered) series; if the series is
empty or the latest snapshot has no `repositories` field, render nothing;
otherwise drop entries with `totalStale ≤ 0`, sort descending by
`totalStale` (`(a, b) => b.totalStale - a.totalStale`, stable), and keep
the top 10. -/
def renderBreakdownRepos (data : List Snapshot) : List RepoEntry :=
  match data.getLast? with
  | none => []
  | some latest =>
    match latest.repositories with
    | none => []
    | some rs =>
      (List.insertionSort (fun a b : RepoEntry => b.totalStale ≤ a.totalStale)
        (rs.filter (fun r => decide (0 < r.totalStale)))).take 10

/-- Test fixture: a Stale Item whose `number` is `n` and whose `title` is
`t`, all other fields fixed. -/
def mkItem (n : Int) (t : String) : Item :=
  { type := "issue", repo := "acme/widgets", org := "acme", repoName := "widgets",
    title := t, number := n, author := "alice", updated := 0, labels := [],
    url := "u", state := "open" }

/-- Test fixture: a snapshot file store holding snapshots for day `0` and
day `-2` only. -/
def sampleStore : Int → FileResult := fun d =>
  if d = 0 then .ok { date := 0, totals := none, repositories := none }
  else if d = -2 then .ok { date := -2, totals := none, repositories := none }
  else .notFound

/-- Test fixture: a snapshot dated `d` whose breakdown has entries for
three repositories, one of them with zero stale items. -/
def sampleSnapshot (d : Int) : Snapshot :=
  { date := d, totals := none,
    repositories := some [⟨"acme/widgets", 3⟩, ⟨"beta/gears", 5⟩, ⟨"gamma/cogs", 0⟩] }

/-! ## Claims C1, C6 and C7 -/

/-- C1: the Source Adapter never throws (it is a total function into lists);
on a transport failure or a non-2xx status it contributes zero items for
that repository, and the load cycle's result is as if the failing
repository were absent from the configuration, so the other repositories'
items are preserved. -/
theorem fetch_failure_isolated (repos : List (String × String))
    (net : String → String → FetchResponse) (o r : String)
    (hfail : (net o r).isFailure = true) :
    fetchStaleItems o r (net o r) = []
    ∧ loadAll repos net = loadAll (repos.filter (fun p => !(p == (o, r)))) net := by
  have hzero : fetchStaleItems o r (net o r) = [] := by
    cases hresp : net o r with
    | transportError => rfl
    | response ok body =>
      rw [hresp] at hfail
      simp only [FetchResponse.isFailure, Bool.not_eq_true'] at hfail
      simp [fetchStaleItems, hfail]
  refine ⟨hzero, ?_⟩
  induction repos with
  | nil => rfl
  | cons p rest ih =>
    by_cases hp : p = (o, r)
    · subst hp
      have h1 : ((o, r) :: rest).filter (fun q => !(q == (o, r)))
          = rest.filter (fun q => !(q == (o, r))) := by
        simp [List.filter_cons]
      rw [h1]
      show fetchStaleItems o r (net o r) ++ loadAll rest net = _
      rw [hzero, List.nil_append]
      exact ih
    · have h1 : (p :: rest).filter (fun q => !(q == (o, r)))
          = p :: rest.filter (fun q => !(q == (o, r))) := by
        simp [List.filter_cons, hp]
      rw [h1]
      show fetchStaleItems p.1 p.2 (net p.1 p.2) ++ loadAll rest net
          = fetchStaleItems p.1 p.2 (net p.1 p.2)
            ++ loadAll (rest.filter (fun q => !(q == (o, r)))) net
      rw [ih]

/-- Witness for C1: with a network that fails for `acme/widgets` with a 500
status and succeeds for `beta/gears`, the failing repository contributes
nothing and the load cycle keeps being the one over the other repository. -/
theorem fetch_failure_isolated_witness :
    fetchStaleItems "acme" "widgets"
        ((fun o _ => if o = "acme" then FetchResponse.response false none
          else FetchResponse.response true (some [])) "acme" "widgets") = []
    ∧ loadAll [("acme", "widgets"), ("beta", "gears")]
        (fun o _ => if o = "acme" then FetchResponse.response false none
          else FetchResponse.response true (some []))
      = loadAll ([("acme", "widgets"), ("beta", "gears")].filter
          (fun p => !(p == ("acme", "widgets"))))
        (fun o _ => if o = "acme" then FetchResponse.response false none
          else FetchResponse.response true (some [])) :=
  fetch_failure_isolated [("acme", "widgets"), ("beta", "gears")]
    (fun o _ => if o = "acme" then FetchResponse.response false none
      else FetchResponse.response true (some []))
    "acme" "widgets" (by decide)

/-- C6: for every raw record returned by the items listing endpoint, the
normalized item has kind `"pr"` (PullRequest) iff the raw record carries a
truthy pull-request marker, and kind `"issue"` (Issue) otherwise; and every
item contributed by a successful fetch is the normalization of some raw
record of the response body. -/
theorem normalize_kind_iff_marker (org repo : String) (raw : RawItem) :
    ((normalizeItem org repo raw).type = "pr" ↔ raw.pull_request = true)
    ∧ ((normalizeItem org repo raw).type = "issue" ↔ raw.pull_request = false)
    ∧ (∀ body : List RawItem, ∀ it ∈ fetchStaleItems org repo (.response true (some body)),
        ∃ raw2 ∈ body, it = normalizeItem org repo raw2) := by
  refine ⟨?_, ?_, ?_⟩
  · cases h : raw.pull_request <;> simp [normalizeItem, h]
  · cases h : raw.pull_request <;> simp [normalizeItem, h]
  · intro body it hit
    have hdef : fetchStaleItems org repo (.response true (some body))
        = body.map (normalizeItem org repo) := rfl
    rw [hdef, List.mem_map] at hit
    obtain ⟨raw2, hmem, heq⟩ := hit
    exact ⟨raw2, hmem, heq.symm⟩

/-- Witness for C6 at a concrete raw record with a truthy marker. -/
theorem normalize_kind_iff_marker_witness :
    (normalizeItem "acme" "widgets"
      { pull_request := true, title := "t", number := 5, user := ⟨"alice"⟩,
        updated_at := 0, labels := [], html_url := "u", state := "open" }).type = "pr" :=
  (normalize_kind_iff_marker "acme" "widgets"
    { pull_request := true, title := "t", number := 5, user := ⟨"alice"⟩,
      updated_at := 0, labels := [], html_url := "u", state := "open" }).1.mpr rfl

/-- C7: invoking `sortBy` with the same field as the current sort flips the
`ascending` flag; invoking it with a different field installs that field
with `ascending = false`. -/
theorem toggleSort_spec (cur : SortState) (field : String) :
    (field = cur.field → toggleSort cur field = ⟨cur.field, !cur.ascending⟩)
    ∧ (field ≠ cur.field → toggleSort cur field = ⟨field, false⟩) := by
  constructor
  · intro h
    simp [toggleSort, h]
  · intro h
    have : (cur.field == field) = false := by
      simp [Ne.symm h]
    simp [toggleSort, this]

/-- Witness for C7: flipping on the same field and resetting on a new field,
at a concrete sort state. -/
theorem toggleSort_spec_witness :
    toggleSort ⟨"updated", false⟩ "updated" = ⟨"updated", true⟩
    ∧ toggleSort ⟨"updated", false⟩ "number" = ⟨"number", false⟩ :=
  ⟨(toggleSort_spec ⟨"updated", false⟩ "updated").1 rfl,
   (toggleSort_spec ⟨"updated", false⟩ "number").2 (by decide)⟩

/-! ## Claims C5 and C10 -/

/-- The per-item predicate of `applyFilters` is the conjunction of the
three per-field predicates. -/
theorem itemMatches_eq_and (f : Filters) (x : Item) :
    itemMatches f x = (repoPred f x && typePred f x && searchPred f x) := by
  simp only [itemMatches, repoPred, typePred, searchPred]
  cases h1 : (f.repoFilter != "" && x.repo != f.repoFilter)
    <;> cases h2 : (f.typeFilter != "" && x.type != f.typeFilter)
    <;> cases h3 : (jsToLower f.searchFilter != ""
          && !(strIncludes (jsToLower x.title) (jsToLower f.searchFilter)))
    <;> simp [h1, h2, h3]

/-- C5: the result of `applyFilters` is the intersection of the three
independently filtered subsets (as nested filters, and as a membership
intersection); an empty field imposes no constraint; the all-empty filter
returns the input unchanged. -/
theorem applyFilters_conjunction (items : List Item) (f : Filters) :
    applyFiltersList items f
      = ((items.filter (repoPred f)).filter (typePred f)).filter (searchPred f)
    ∧ (∀ x : Item, x ∈ applyFiltersList items f
        ↔ x ∈ items.filter (repoPred f) ∧ x ∈ items.filter (typePred f)
          ∧ x ∈ items.filter (searchPred f))
    ∧ (f.repoFilter = "" → items.filter (repoPred f) = items)
    ∧ (f.typeFilter = "" → items.filter (typePred f) = items)
    ∧ (f.searchFilter = "" → items.filter (searchPred f) = items)
    ∧ (f = ⟨"", "", ""⟩ → applyFiltersList items f = items) := by
  refine ⟨?_, ?_, ?_, ?_, ?_, ?_⟩
  · rw [List.filter_filter, List.filter_filter]
    apply List.filter_congr
    intro x _
    rw [itemMatches_eq_and]
    cases repoPred f x <;> cases typePred f x <;> cases searchPred f x <;> rfl
  · intro x
    simp only [applyFiltersList, List.mem_filter, itemMatches_eq_and, Bool.and_eq_true]
    tauto
  · intro h
    rw [List.filter_eq_self]
    intro a _
    simp [repoPred, h]
  · intro h
    rw [List.filter_eq_self]
    intro a _
    simp [typePred, h]
  · intro h
    rw [List.filter_eq_self]
    intro a _
    simp [searchPred, h, show jsToLower "" = "" from rfl]
  · intro h
    subst h
    rw [applyFiltersList, List.filter_eq_self]
    intro a _
    simp [itemMatches, show jsToLower "" = "" from rfl]

/-- Witness for C5: the all-empty filter leaves a concrete item list
unchanged. -/
theorem applyFilters_conjunction_witness :
    applyFiltersList [mkItem 1 "Fix widget", mkItem 2 "Other"] ⟨"", "", ""⟩
      = [mkItem 1 "Fix widget", mkItem 2 "Other"] :=
  (applyFilters_conjunction [mkItem 1 "Fix widget", mkItem 2 "Other"]
    ⟨"", "", ""⟩).2.2.2.2.2 rfl

/-- C10: `applyFilters` reads only the store and the filter inputs — two
states that agree on those produce the same `filteredItems` regardless of
their current sort state, and the output preserves the store's relative
order (it is a sublist of the store). -/
theorem applyFilters_ignores_sort (s1 s2 : DashState)
    (hitems : s1.staleItems = s2.staleItems) (hfilters : s1.filters = s2.filters) :
    (DashState.applyFiltersOp s1).filteredItems
      = (DashState.applyFiltersOp s2).filteredItems
    ∧ (DashState.applyFiltersOp s1).filteredItems.Sublist s1.staleItems := by
  constructor
  · simp [DashState.applyFiltersOp, hitems, hfilters]
  · show List.Sublist (applyFiltersList s1.staleItems s1.filters) s1.staleItems
    exact List.filter_sublist _

/-- Witness for C10: two concrete states sharing store and filters but
with different current sorts and different stale `filteredItems` leftovers
produce the same filter output. -/
theorem applyFilters_ignores_sort_witness :
    (DashState.applyFiltersOp
        ⟨[mkItem 1 "a"], [], ⟨"updated", false⟩, ⟨"", "", ""⟩⟩).filteredItems
      = (DashState.applyFiltersOp
        ⟨[mkItem 1 "a"], [mkItem 2 "b"], ⟨"number", true⟩, ⟨"", "", ""⟩⟩).filteredItems
    ∧ (DashState.applyFiltersOp
        ⟨[mkItem 1 "a"], [], ⟨"updated", false⟩, ⟨"", "", ""⟩⟩).filteredItems.Sublist
        [mkItem 1 "a"] :=
  applyFilters_ignores_sort
    ⟨[mkItem 1 "a"], [], ⟨"updated", false⟩, ⟨"", "", ""⟩⟩
    ⟨[mkItem 1 "a"], [mkItem 2 "b"], ⟨"number", true⟩, ⟨"", "", ""⟩⟩ rfl rfl

/-! ## Claims C8 and C9 -/

/-- For sorting by `number`, the comparator's `≤ 0` relation is exactly
integer `≤` on the items' numbers. -/
theorem itemLe_number_iff (a b : Item) :
    (itemLe "number" true a b = true) ↔ a.number ≤ b.number := by
  have ha : sortKey "number" a = SVal.int a.number := rfl
  have hb : sortKey "number" b = SVal.int b.number := rfl
  simp only [itemLe, itemCmp, ha, hb, svalLt, decide_eq_true_eq]
  by_cases h1 : a.number < b.number <;> by_cases h2 : b.number < a.number <;>
    simp [h1, h2] <;> omega

/-- C8: the sort of `sortBy` is stable with respect to ties — two items
whose sort keys compare equal (comparator returns `0`) and that appear in
this order in the input still appear in this order in the output. -/
theorem sortItems_stable (field : String) (asc : Bool) (items : List Item)
    (a b : Item) (hkey : itemCmp field asc a b = 0)
    (hsub : List.Sublist [a, b] items) :
    List.Sublist [a, b] (sortItems field asc items) := by
  have hle : itemLe field asc a b = true := by
    simp [itemLe, hkey]
  exact List.pair_sublist_insertionSort hle hsub

/-- Witness for C8: two items with the equal sort key `5` separated by a
smaller item keep their relative order after sorting by `number`. -/
theorem sortItems_stable_witness :
    List.Sublist [mkItem 5 "first", mkItem 5 "second"]
      (sortItems "number" true [mkItem 5 "first", mkItem 1 "mid", mkItem 5 "second"]) :=
  sortItems_stable "number" true [mkItem 5 "first", mkItem 1 "mid", mkItem 5 "second"]
    (mkItem 5 "first") (mkItem 5 "second") (by decide)
    (List.Sublist.cons₂ _ (List.Sublist.cons _ (List.Sublist.refl _)))

/-- C9: sorting by the `number` field compares integers — every ascending
sort by `number` is sorted by integer `≤` on `number`, and the concrete
items numbered `10` and `2` come out as `[2, 10]`, not in lexicographic
string order. -/
theorem sortItems_number_numeric :
    (∀ items : List Item, List.Pairwise (fun a b : Item => a.number ≤ b.number)
        (sortItems "number" true items))
    ∧ sortItems "number" true [mkItem 10 "x", mkItem 2 "y"]
        = [mkItem 2 "y", mkItem 10 "x"] := by
  constructor
  · intro items
    haveI : IsTotal Item (fun a b : Item => itemLe "number" true a b = true) :=
      ⟨fun a b => by rw [itemLe_number_iff, itemLe_number_iff]; omega⟩
    haveI : IsTrans Item (fun a b : Item => itemLe "number" true a b = true) :=
      ⟨fun a b c hab hbc => by
        rw [itemLe_number_iff] at hab hbc ⊢
        omega⟩
    have hs := List.sorted_insertionSort
      (fun a b : Item => itemLe "number" true a b = true) items
    exact hs.imp (fun hab => (itemLe_number_iff _ _).mp hab)
  · decide

/-! ## Claim C3 -/

/-- C3: the period filter of `updateCharts` keeps exactly the snapshots
with `date ≥ today − N` for a numeric period (in their original order, as
a sublist) and keeps the series unchanged for `"all"`; on the spec's
example series `today−40`, `today−10`, `today−1`, period `"7"` keeps only
`today−1` and `"all"` keeps all three in ascending order. -/
theorem filterByPeriod_spec (today : Int) (n : Nat) (series : List Snapshot) :
    (∀ s : Snapshot, s ∈ filterByPeriod today (.days n) series
        ↔ s ∈ series ∧ today - (n : Int) ≤ s.date)
    ∧ List.Sublist (filterByPeriod today (.days n) series) series
    ∧ filterByPeriod today .all series = series
    ∧ filterByPeriod 0 (.days 7)
        [sampleSnapshot (-40), sampleSnapshot (-10), sampleSnapshot (-1)]
        = [sampleSnapshot (-1)]
    ∧ filterByPeriod 0 .all
        [sampleSnapshot (-40), sampleSnapshot (-10), sampleSnapshot (-1)]
        = [sampleSnapshot (-40), sampleSnapshot (-10), sampleSnapshot (-1)] := by
  refine ⟨?_, List.filter_sublist _, rfl, by decide, rfl⟩
  intro s
  simp [filterByPeriod, List.mem_filter]

/-- Witness for C3: the window-`7` example projected from the theorem. -/
theorem filterByPeriod_spec_witness :
    filterByPeriod 0 (.days 7)
        [sampleSnapshot (-40), sampleSnapshot (-10), sampleSnapshot (-1)]
      = [sampleSnapshot (-1)] :=
  (filterByPeriod_spec 0 7 []).2.2.2.1


/-! ## Claim C2 -/

/-- C2: the history scan addresses exactly the 365 dates `today − i` for
`i ∈ [0, 365)` (its output depends on the store only at those dates); every
returned snapshot comes from a successful probe — a missing file, a failed
fetch or a malformed body is skipped; every successful probe contributes
its snapshot; and, under the file-store addressing invariant that the file
for date `d` holds the snapshot dated `d`, the output is sorted strictly
ascending by date and therefore has no duplicate dates. -/
theorem loadHistoricalData_spec (today : Int) (store : Int → FileResult)
    (honest : ∀ d s, store d = FileResult.ok s → s.date = d) :
    (probeDates today).length = 365
    ∧ (∀ store2 : Int → FileResult,
        (∀ d, d ∈ probeDates today → store d = store2 d) →
        loadHistoricalData today store = loadHistoricalData today store2)
    ∧ (∀ s, s ∈ loadHistoricalData today store →
        ∃ i : Nat, i < 365 ∧ store (today - (i : Int)) = FileResult.ok s)
    ∧ (∀ i : Nat, i < 365 → ∀ s, store (today - (i : Int)) = FileResult.ok s →
        s ∈ loadHistoricalData today store)
    ∧ List.Pairwise (fun a b : Snapshot => a.date < b.date)
        (loadHistoricalData today store) := by
  refine ⟨?_, ?_, ?_, ?_, ?_⟩
  · rw [probeDates, List.length_map, List.length_range]
  · intro store2 hagree
    show List.insertionSort _ ((List.range 365).filterMap (probeResult today store))
      = List.insertionSort _ ((List.range 365).filterMap (probeResult today store2))
    congr 1
    apply List.filterMap_congr
    intro i hi
    have hd : store (today - (i : Int)) = store2 (today - (i : Int)) := by
      apply hagree
      rw [probeDates, List.mem_map]
      exact ⟨i, hi, rfl⟩
    rw [probeResult, probeResult, hd]
  · intro s hs
    have h1 : s ∈ (List.range 365).filterMap (probeResult today store) :=
      (List.mem_insertionSort _).mp hs
    rw [List.mem_filterMap] at h1
    obtain ⟨i, hi, hfi⟩ := h1
    refine ⟨i, List.mem_range.mp hi, ?_⟩
    rw [probeResult] at hfi
    cases hst : store (today - (i : Int)) with
    | transportError => rw [hst] at hfi; simp at hfi
    | notFound => rw [hst] at hfi; simp at hfi
    | malformed => rw [hst] at hfi; simp at hfi
    | ok snap =>
      rw [hst] at hfi
      simp only [Option.some.injEq] at hfi
      rw [hfi]
  · intro i hi s hst
    show s ∈ List.insertionSort _ ((List.range 365).filterMap (probeResult today store))
    rw [List.mem_insertionSort, List.mem_filterMap]
    refine ⟨i, List.mem_range.mpr hi, ?_⟩
    rw [probeResult, hst]
  · have hfm : List.Pairwise (fun a b : Snapshot => a.date ≠ b.date)
        ((List.range 365).filterMap (probeResult today store)) := by
      rw [List.pairwise_filterMap]
      refine (List.pairwise_lt_range 365).imp ?_
      intro i j hij s hs t ht
      rw [probeResult] at hs ht
      cases hsi : store (today - (i : Int)) with
      | transportError => rw [hsi] at hs; simp at hs
      | notFound => rw [hsi] at hs; simp at hs
      | malformed => rw [hsi] at hs; simp at hs
      | ok snapi =>
        rw [hsi] at hs
        simp only [Option.mem_def, Option.some.injEq] at hs
        subst hs
        cases hsj : store (today - (j : Int)) with
        | transportError => rw [hsj] at ht; simp at ht
        | notFound => rw [hsj] at ht; simp at ht
        | malformed => rw [hsj] at ht; simp at ht
        | ok snapj =>
          rw [hsj] at ht
          simp only [Option.mem_def, Option.some.injEq] at ht
          subst ht
          have hdi := honest _ _ hsi
          have hdj := honest _ _ hsj
          rw [hdi, hdj]
          omega
    haveI : IsTotal Snapshot (fun a b : Snapshot => a.date ≤ b.date) :=
      ⟨fun a b => Int.le_total a.date b.date⟩
    haveI : IsTrans Snapshot (fun a b : Snapshot => a.date ≤ b.date) :=
      ⟨fun a b c => Int.le_trans⟩
    have hsorted := List.sorted_insertionSort (fun a b : Snapshot => a.date ≤ b.date)
      ((List.range 365).filterMap (probeResult today store))
    have hperm := List.perm_insertionSort (fun a b : Snapshot => a.date ≤ b.date)
      ((List.range 365).filterMap (probeResult today store))
    have hne := hperm.symm.pairwise hfm (fun h => h.symm)
    have hlt := (List.Pairwise.and hsorted hne).imp
      (fun hab => lt_of_le_of_ne hab.1 hab.2)
    exact hlt

/-- Witness for C2: the concrete two-snapshot store, with the addressing
hypothesis discharged, yields a strictly ascending history. -/
theorem loadHistoricalData_spec_witness :
    List.Pairwise (fun a b : Snapshot => a.date < b.date)
      (loadHistoricalData 0 sampleStore) :=
  (loadHistoricalData_spec 0 sampleStore (by
    intro d s h
    simp only [sampleStore] at h
    split_ifs at h with h1 h2 <;> simp_all <;> rw [← h])).2.2.2.2

/-! ## Claim C4 -/

/-- If the filtered series has no last element, the breakdown is empty. -/
theorem renderBreakdownRepos_of_getLast_none (data : List Snapshot)
    (h1 : data.getLast? = none) : renderBreakdownRepos data = [] := by
  simp only [renderBreakdownRepos, h1]

/-- If the latest snapshot has no `repositories` field, the breakdown is
empty. -/
theorem renderBreakdownRepos_of_repositories_none (data : List Snapshot)
    (latest : Snapshot) (h1 : data.getLast? = some latest)
    (h2 : latest.repositories = none) : renderBreakdownRepos data = [] := by
  simp only [renderBreakdownRepos, h1, h2]

/-- The breakdown in the successful case: the positive entries of the
latest snapshot, sorted descending, truncated to 10. -/
theorem renderBreakdownRepos_eq (data : List Snapshot) (latest : Snapshot)
    (rs : List RepoEntry) (h1 : data.getLast? = some latest)
    (h2 : latest.repositories = some rs) :
    renderBreakdownRepos data
      = (List.insertionSort (fun a b : RepoEntry => b.totalStale ≤ a.totalStale)
          (rs.filter (fun r => decide (0 < r.totalStale)))).take 10 := by
  simp only [renderBreakdownRepos, h1, h2]

/-- C4: the breakdown is derived from the most recent snapshot only — it
has at most 10 entries, is sorted descending by `totalStale`, every entry
is a positive-`totalStale` entry of the latest snapshot's `repositories`;
an empty series or a missing `repositories` field yields an empty
breakdown; and it is a top-10: a positive entry left out can only be left
out when the breakdown is full with entries at least as large. -/
theorem renderBreakdown_spec (data : List Snapshot) :
    (renderBreakdownRepos data).length ≤ 10
    ∧ List.Pairwise (fun a b : RepoEntry => b.totalStale ≤ a.totalStale)
        (renderBreakdownRepos data)
    ∧ (∀ r ∈ renderBreakdownRepos data, 0 < r.totalStale
        ∧ ∃ latest rs, data.getLast? = some latest
            ∧ latest.repositories = some rs ∧ r ∈ rs)
    ∧ (data = [] → renderBreakdownRepos data = [])
    ∧ (∀ latest, data.getLast? = some latest → latest.repositories = none →
        renderBreakdownRepos data = [])
    ∧ (∀ latest rs, data.getLast? = some latest → latest.repositories = some rs →
        ∀ r ∈ rs, 0 < r.totalStale → r ∉ renderBreakdownRepos data →
          (renderBreakdownRepos data).length = 10
          ∧ ∀ b ∈ renderBreakdownRepos data, r.totalStale ≤ b.totalStale) := by
  haveI : IsTotal RepoEntry (fun a b : RepoEntry => b.totalStale ≤ a.totalStale) :=
    ⟨fun a b => Int.le_total b.totalStale a.totalStale⟩
  haveI : IsTrans RepoEntry (fun a b : RepoEntry => b.totalStale ≤ a.totalStale) :=
    ⟨fun a b c hab hbc => Int.le_trans hbc hab⟩
  refine ⟨?_, ?_, ?_, ?_, ?_, ?_⟩
  · cases hl : data.getLast? with
    | none => rw [renderBreakdownRepos_of_getLast_none data hl]; simp
    | some latest =>
      cases hr : latest.repositories with
      | none => rw [renderBreakdownRepos_of_repositories_none data latest hl hr]; simp
      | some rs =>
        rw [renderBreakdownRepos_eq data latest rs hl hr]
        exact List.length_take_le 10 _
  · cases hl : data.getLast? with
    | none => rw [renderBreakdownRepos_of_getLast_none data hl]; exact List.Pairwise.nil
    | some latest =>
      cases hr : latest.repositories with
      | none =>
        rw [renderBreakdownRepos_of_repositories_none data latest hl hr]
        exact List.Pairwise.nil
      | some rs =>
        rw [renderBreakdownRepos_eq data latest rs hl hr]
        exact List.Pairwise.sublist (List.take_sublist 10 _)
          (List.sorted_insertionSort _ _)
  · intro r hr
    cases hl : data.getLast? with
    | none => rw [renderBreakdownRepos_of_getLast_none data hl] at hr; cases hr
    | some latest =>
      cases hrep : latest.repositories with
      | none =>
        rw [renderBreakdownRepos_of_repositories_none data latest hl hrep] at hr
        cases hr
      | some rs =>
        rw [renderBreakdownRepos_eq data latest rs hl hrep] at hr
        have h1 : r ∈ List.insertionSort
            (fun a b : RepoEntry => b.totalStale ≤ a.totalStale)
            (rs.filter (fun r => decide (0 < r.totalStale))) :=
          (List.take_sublist 10 _).subset hr
        have h2 := (List.mem_insertionSort _).mp h1
        have h3 := List.mem_filter.mp h2
        refine ⟨by simpa using h3.2, latest, rs, rfl, hrep, h3.1⟩
  · intro h
    subst h
    rfl
  · intro latest h1 h2
    exact renderBreakdownRepos_of_repositories_none data latest h1 h2
  · intro latest rs h1 h2 r hrrs hrpos hnotin
    rw [renderBreakdownRepos_eq data latest rs h1 h2] at hnotin ⊢
    set L := List.insertionSort (fun a b : RepoEntry => b.totalStale ≤ a.totalStale)
      (rs.filter (fun r => decide (0 < r.totalStale))) with hL
    have hrL : r ∈ L :=
      (List.mem_insertionSort _).mpr (List.mem_filter.mpr ⟨hrrs, by simpa using hrpos⟩)
    have hrLsplit : r ∈ L.take 10 ++ L.drop 10 := by
      rw [List.take_append_drop]
      exact hrL
    have hrdrop : r ∈ L.drop 10 := by
      rcases List.mem_append.mp hrLsplit with h | h
      · exact absurd h hnotin
      · exact h
    have hlen : 10 < L.length := by
      by_contra hle
      push_neg at hle
      have hnil : L.drop 10 = [] := List.drop_eq_nil_iff.mpr hle
      rw [hnil] at hrdrop
      cases hrdrop
    constructor
    · rw [List.length_take]
      omega
    · intro b hb
      have hsorted : List.Pairwise (fun a b : RepoEntry => b.totalStale ≤ a.totalStale)
          (L.take 10 ++ L.drop 10) := by
        rw [List.take_append_drop]
        exact List.sorted_insertionSort _ _
      exact (List.pairwise_append.mp hsorted).2.2 b hb r hrdrop

/-- Witness for C4: the concrete latest snapshot's breakdown drops the
zero entry and sorts the rest descending. -/
theorem renderBreakdown_spec_witness :
    renderBreakdownRepos [sampleSnapshot (-1)]
        = [⟨"beta/gears", 5⟩, ⟨"acme/widgets", 3⟩]
    ∧ (renderBreakdownRepos [sampleSnapshot (-1)]).length ≤ 10 :=
  ⟨by decide, (renderBreakdown_spec [sampleSnapshot (-1)]).1⟩

/-- Witness for C9: the ascending `number` sort of the two concrete items
is sorted by integer `≤`. -/
theorem sortItems_number_numeric_witness :
    List.Pairwise (fun a b : Item => a.number ≤ b.number)
      (sortItems "number" true [mkItem 10 "x", mkItem 2 "y"]) :=
  sortItems_number_numeric.1 [mkItem 10 "x", mkItem 2 "y"]
